import Mathlib

/-!
Verification of the streaming-metrics module
(`tensorflow/contrib/metrics/python/ops/metric_ops.py`).

The module builds pairs `(value, update_op)` over accumulator state held in
local variables.  We embed the state of each metric as an explicit Lean
structure, the update expression as a state-passing function that returns the
number the op would report together with the post-increment state, and the
value expression as a read-only function of the state.  Machine floats are
modelled by exact rationals; the batch tensors are modelled by their flat
list of elements plus, where rank matters, an explicit shape.  Construction
time shape/type failures are modelled with `Except`.
-/

namespace MetricOps

/-- Embeds `math_ops.to_float` on a boolean element: `True ↦ 1.0`, `False ↦ 0.0`. -/
def boolToFloat (b : Bool) : ℚ := if b then 1 else 0

/-- Embeds `_create_local(name, shape=[])`: a scalar local variable, zero initialized
(`array_ops.zeros`). -/
def createLocalScalar : ℚ := 0

/-- Embeds `_create_local(name, shape=[n])`: a length-`n` vector local variable, zero
initialized (`array_ops.zeros`). -/
def createLocalVector (n : ℕ) : List ℚ := List.replicate n 0

/-! ## `streaming_mean` (lines 327-397)

State: the two scalar locals `total` and `count`.  The update expression
multiplies the values by the weights when given, adds `reduce_sum(values)` to
`total` and either `reduce_sum(weights)` or `size(values)` to `count`, then
reports `compute_mean` of the incremented state.  The value expression is
`compute_mean` of the current state.  Batches are the flat element lists of
the `values`/`weights` tensors; `assert_is_compatible_with` on fully known
shapes is the length equality check. -/

structure MeanState where
  total : ℚ
  count : ℚ
  deriving DecidableEq, Repr

/-- Embeds `compute_mean(total, count)` of `streaming_mean`:
`select(greater(count, 0), div(total, count), 0)`. -/
def compute_mean (total count : ℚ) : ℚ :=
  if 0 < count then total / count else 0

/-- The `update_op` of `streaming_mean`: commits the two `assign_add`s and
returns `compute_mean` evaluated on the incremented state (the
`control_dependencies` block, lines 388-389). -/
def streaming_mean_update (s : MeanState) (values : List ℚ) :
    Option (List ℚ) → Except String (ℚ × MeanState)
  | some w =>
      if values.length = w.length then
        let wvalues := List.zipWith (· * ·) values w
        let s' : MeanState := ⟨s.total + wvalues.sum, s.count + w.sum⟩
        .ok (compute_mean s'.total s'.count, s')
      else
        .error "weights shape is not compatible with values shape"
  | none =>
      let s' : MeanState := ⟨s.total + values.sum, s.count + (values.length : ℚ)⟩
      .ok (compute_mean s'.total s'.count, s')

/-- The `mean` value expression of `streaming_mean` (line 387): reads the
state without mutating it and reports `compute_mean`. -/
def streaming_mean_value (s : MeanState) : ℚ × MeanState :=
  (compute_mean s.total s.count, s)

/-! ## `_count_condition` (lines 175-216)

State: the scalar local `count`.  `update_op` selects zero where the ignore
mask holds, casts the booleans to floats, and `assign_add`s the reduced sum;
its reported number is the value of the `assign_add`, i.e. the new count.
The value expression is `identity(count)`. -/

/-- The masked boolean batch of `_count_condition`:
`select(ignore_mask, zeros_like(values), values)`. -/
def maskSelect (ignore_mask values : List Bool) : List Bool :=
  List.zipWith (fun m v => if m then false else v) ignore_mask values

/-- The `update_op` of `_count_condition`: zeroes the masked positions of the
boolean batch, sums the float cast, and commits the `assign_add`, whose value
is the new count. -/
def count_condition_update (count : ℚ) (values : List Bool) :
    Option (List Bool) → Except String ℚ
  | some mask =>
      if values.length = mask.length then
        .ok (count + ((maskSelect mask values).map boolToFloat).sum)
      else
        .error "ignore_mask shape is not compatible with values shape"
  | none => .ok (count + (values.map boolToFloat).sum)

/-- The `value_tensor` of `_count_condition` (line 207): `identity(count)`,
a read that leaves the state unchanged. -/
def count_condition_value (count : ℚ) : ℚ × ℚ := (count, count)

/-! ## Confusion indicators and `streaming_precision` / `streaming_recall`
(lines 219-324, 453-608)

The `_streaming_true_positives` / `_streaming_false_positives` /
`_streaming_false_negatives` helpers derive a boolean indicator array from
the raw predictions and labels and feed it into `_count_condition` together
with the caller's `ignore_mask`.  Precision and recall each own two such
counters and finalize with a guarded division.  Batches are the flat element
lists of the (already rank-aligned) binary tensors. -/

/-- Embeds `is_true_positive = logical_and(equal(labels, 1), equal(predictions, 1))`
(lines 249-250), element-wise. -/
def is_true_positive (prediction label : ℚ) : Bool :=
  label == 1 && prediction == 1

/-- Embeds `is_false_positive = logical_and(equal(labels, 0), equal(predictions, 1))`
(lines 285-286), element-wise. -/
def is_false_positive (prediction label : ℚ) : Bool :=
  label == 0 && prediction == 1

/-- Embeds `is_false_negative = logical_and(equal(labels, 1), equal(predictions, 0))`
(lines 321-322), element-wise. -/
def is_false_negative (prediction label : ℚ) : Bool :=
  label == 1 && prediction == 0

/-- Embeds `_streaming_true_positives`: the indicator array handed to
`_count_condition`. -/
def true_positives_batch (predictions labels : List ℚ) : List Bool :=
  List.zipWith is_true_positive predictions labels

/-- Embeds `_streaming_false_positives`: the indicator array handed to
`_count_condition`. -/
def false_positives_batch (predictions labels : List ℚ) : List Bool :=
  List.zipWith is_false_positive predictions labels

/-- Embeds `_streaming_false_negatives`: the indicator array handed to
`_count_condition`. -/
def false_negatives_batch (predictions labels : List ℚ) : List Bool :=
  List.zipWith is_false_negative predictions labels

/-- State of `streaming_precision`: the `true_positives` and
`false_positives` scalar counters. -/
structure PrecisionState where
  true_positives : ℚ
  false_positives : ℚ
  deriving DecidableEq, Repr

/-- State of `streaming_recall`: the `true_positives` and `false_negatives`
scalar counters. -/
structure RecallState where
  true_positives : ℚ
  false_negatives : ℚ
  deriving DecidableEq, Repr

/-- Embeds `compute_precision` (lines 512-517):
`select(greater(tp + fp, 0), div(tp, tp + fp), 0)`. -/
def compute_precision (tp fp : ℚ) : ℚ :=
  if 0 < tp + fp then tp / (tp + fp) else 0

/-- Embeds `compute_recall` (lines 590-595):
`select(greater(tp + fn, 0), div(tp, tp + fn), 0)`. -/
def compute_recall (tp fn : ℚ) : ℚ :=
  if 0 < tp + fn then tp / (tp + fn) else 0

/-- The `update_op` of `streaming_precision`: runs the two `_count_condition`
updates on the derived indicator arrays (with the same `ignore_mask`) and
reports `compute_precision` on the incremented counters (lines 520-522). -/
def streaming_precision_update (s : PrecisionState)
    (predictions labels : List ℚ) (ignore_mask : Option (List Bool)) :
    Except String (ℚ × PrecisionState) :=
  if predictions.length = labels.length then do
    let tp ← count_condition_update s.true_positives
      (true_positives_batch predictions labels) ignore_mask
    let fp ← count_condition_update s.false_positives
      (false_positives_batch predictions labels) ignore_mask
    .ok (compute_precision tp fp, ⟨tp, fp⟩)
  else
    .error "labels shape is not compatible with predictions shape"

/-- The `precision` value expression (line 519): reads the two counters
without mutating them. -/
def streaming_precision_value (s : PrecisionState) : ℚ × PrecisionState :=
  (compute_precision s.true_positives s.false_positives, s)

/-- The `update_op` of `streaming_recall`: runs the two `_count_condition`
updates on the derived indicator arrays (with the same `ignore_mask`) and
reports `compute_recall` on the incremented counters (lines 598-600). -/
def streaming_recall_update (s : RecallState)
    (predictions labels : List ℚ) (ignore_mask : Option (List Bool)) :
    Except String (ℚ × RecallState) :=
  if predictions.length = labels.length then do
    let tp ← count_condition_update s.true_positives
      (true_positives_batch predictions labels) ignore_mask
    let fn ← count_condition_update s.false_negatives
      (false_negatives_batch predictions labels) ignore_mask
    .ok (compute_recall tp fn, ⟨tp, fn⟩)
  else
    .error "labels shape is not compatible with predictions shape"

/-- The `recall` value expression (line 597): reads the two counters without
mutating them. -/
def streaming_recall_value (s : RecallState) : ℚ × RecallState :=
  (compute_recall s.true_positives s.false_negatives, s)

/-! ## Tensors with explicit static shape

For `_remove_squeezable_dimensions` and the rank assertions of
`streaming_auc` the static shape of a tensor matters, so these are modelled
on a tensor carrying a dimension list together with its flat data. -/

structure Tensor where
  shape : List ℕ
  data : List ℚ
  deriving DecidableEq, Repr

/-- Embeds `get_shape().ndims` on a statically known shape. -/
def Tensor.rank (t : Tensor) : ℕ := t.shape.length

/-- Embeds `array_ops.squeeze(t, [-1])`: removes the last dimension, which must be
of size 1; any other size is a static-shape error. -/
def squeezeLast (t : Tensor) : Except String Tensor :=
  if t.shape.getLast? = some 1 then
    .ok ⟨t.shape.dropLast, t.data⟩
  else
    .error "Can not squeeze dim, expected a dimension of 1"

/-- Embeds `_remove_squeezable_dimensions` (lines 164-172): when the two known ranks
differ by exactly one, the higher-rank tensor has its last dimension squeezed
away; otherwise both tensors pass through unchanged. -/
def remove_squeezable_dimensions (predictions labels : Tensor) :
    Except String (Tensor × Tensor) :=
  if labels.rank = predictions.rank + 1 then do
    let labels ← squeezeLast labels
    .ok (predictions, labels)
  else if predictions.rank = labels.rank + 1 then do
    let predictions ← squeezeLast predictions
    .ok (predictions, labels)
  else
    .ok (predictions, labels)

/-! ## `streaming_auc` (lines 611-785)

State: the four length-`num_thresholds` vector locals.  The update
expression squeezes/aligns the two tensors, asserts their shapes compatible
and their ranks 1, builds `num_thresholds` thresholds by
`linspace(0 - 1e-7, 1 + 1e-7, num_thresholds)`, classifies every prediction
at every threshold by `greater(prediction, threshold)`, masks the four float
indicator grids with the tiled `ignore_mask`, and `assign_add`s the per-row
(`reduce_sum(·, 1)`) sums into the four vectors.  Both the value and the
update expression report `compute_auc`. -/

/-- Constant `kepsilon = 1e-7` (line 682). -/
def kepsilon : ℚ := 1 / 10000000

/-- Constant `epsilon = 1.0e-6` (line 756). -/
def epsilon : ℚ := 1 / 1000000

/-- Embeds `math_ops.linspace(a, b, n)`: `n` evenly spaced values from `a` to `b`
inclusive. -/
def linspace (a b : ℚ) (n : ℕ) : List ℚ :=
  if n = 1 then [a]
  else (List.range n).map
    (fun (i : ℕ) => a + (i : ℚ) * ((b - a) / ((n : ℚ) - 1)))

/-- The threshold vector of `streaming_auc` (line 692):
`linspace(0.0 - kepsilon, 1.0 + kepsilon, num_thresholds)`. -/
def aucThresholds (num_thresholds : ℕ) : List ℚ :=
  linspace (0 - kepsilon) (1 + kepsilon) num_thresholds

/-- One row of `pred_tiled` (lines 697-702): the prediction scores classified
at threshold `t` by `greater`, cast to 0/1. -/
def threshClassify (t : ℚ) (predictions : List ℚ) : List ℚ :=
  predictions.map (fun p => if t < p then 1 else 0)

/-- One row of a masked float indicator grid of `streaming_auc` followed by
its `reduce_sum(·, 1)`: indicator of `ind` on each (label, classified
prediction) pair, zeroed by `select` where the mask holds (lines 712-754). -/
def aucRowSum (ind : ℚ → ℚ → Bool) (t : ℚ) (predictions labels : List ℚ)
    (ignore_mask : Option (List Bool)) : ℚ :=
  let row := List.zipWith (fun lab p => boolToFloat (ind p lab)) labels
    (threshClassify t predictions)
  match ignore_mask with
  | some mask => (List.zipWith (fun m x => if m then (0 : ℚ) else x) mask row).sum
  | none => row.sum

/-- Embeds `is_true_negative = logical_and(equal(labels, 0), equal(pred, 0))`
(lines 721-723), element-wise. -/
def is_true_negative (prediction label : ℚ) : Bool :=
  label == 0 && prediction == 0

/-- State of `streaming_auc`: the four confusion-count vectors, one cell per
threshold. -/
structure AucState where
  true_positives : List ℚ
  false_negatives : List ℚ
  true_negatives : List ℚ
  false_positives : List ℚ
  deriving DecidableEq, Repr

/-- The zero-initialized state of `streaming_auc` (lines 707-710):
four `_create_local` vectors of length `num_thresholds`. -/
def aucInit (num_thresholds : ℕ) : AucState :=
  ⟨createLocalVector num_thresholds, createLocalVector num_thresholds,
   createLocalVector num_thresholds, createLocalVector num_thresholds⟩

/-- The four `assign_add`s of `streaming_auc` (lines 747-754): each cell of
each counter vector gains the masked indicator row sum at its threshold. -/
def aucIncrements (num_thresholds : ℕ) (s : AucState)
    (predictions labels : List ℚ) (ignore_mask : Option (List Bool)) :
    AucState :=
  let ts := aucThresholds num_thresholds
  ⟨List.zipWith (fun t c => c + aucRowSum is_true_positive t predictions labels ignore_mask) ts s.true_positives,
   List.zipWith (fun t c => c + aucRowSum is_false_negative t predictions labels ignore_mask) ts s.false_negatives,
   List.zipWith (fun t c => c + aucRowSum is_true_negative t predictions labels ignore_mask) ts s.true_negatives,
   List.zipWith (fun t c => c + aucRowSum is_false_positive t predictions labels ignore_mask) ts s.false_positives⟩

/-- Embeds `false_positive_rate = div(fp, fp + tn + epsilon)` (lines 760-762),
element-wise over the threshold axis. -/
def false_positive_rate (fp tn : List ℚ) : List ℚ :=
  List.zipWith (fun f t => f / (f + t + epsilon)) fp tn

/-- Embeds `recall = div(tp + epsilon, tp + fn + epsilon)` (lines 763-764),
element-wise over the threshold axis. -/
def auc_recall (tp fn : List ℚ) : List ℚ :=
  List.zipWith (fun t f => (t + epsilon) / (t + f + epsilon)) tp fn

/-- Embeds `compute_auc` (lines 766-769): the trapezoidal sum
`reduce_sum(mul(fpr[:n-1] - fpr[1:], (recall[:n-1] + recall[1:]) / 2))`. -/
def compute_auc (num_thresholds : ℕ) (s : AucState) : ℚ :=
  let fpr := false_positive_rate s.false_positives s.true_negatives
  let recl := auc_recall s.true_positives s.false_negatives
  (List.zipWith (· * ·)
    (List.zipWith (· - ·) (fpr.take (num_thresholds - 1)) (fpr.drop 1))
    (List.zipWith (fun a b => (a + b) / 2)
      (recl.take (num_thresholds - 1)) (recl.drop 1))).sum

/-- The `ignore_mask` shape compatibility assertion of `streaming_auc`
(lines 728-729). -/
def aucCheckMask (labels : Tensor) : Option (List Bool) → Except String Unit
  | some mask =>
      if labels.data.length = mask.length then .ok ()
      else .error "mask shape is not compatible with labels shape"
  | none => .ok ()

/-- The `update_op` of `streaming_auc`: rank alignment (line 665), shape
compatibility (line 666), the two rank-1 assertions (lines 669-678), the
mask shape check (lines 728-729), then the four `assign_add`s followed by
`compute_auc` on the incremented state (lines 773-777).  Every validation
failure surfaces before any counter is incremented. -/
def streaming_auc_update (num_thresholds : ℕ) (s : AucState)
    (predictions labels : Tensor) (ignore_mask : Option (List Bool)) :
    Except String (ℚ × AucState) := do
  let (predictions, labels) ← remove_squeezable_dimensions predictions labels
  if predictions.shape ≠ labels.shape then
    .error "labels shape is not compatible with predictions shape"
  else if predictions.rank ≠ 1 then
    .error "Input predictions are expected to be a rank 1 tensor."
  else if labels.rank ≠ 1 then
    .error "Input labels are expected to be a rank 1 tensor."
  else do
    let _ ← aucCheckMask labels ignore_mask
    let s' := aucIncrements num_thresholds s predictions.data
      labels.data ignore_mask
    .ok (compute_auc num_thresholds s', s')

/-- The `auc` value expression (line 772): reads the four counter vectors
without mutating them. -/
def streaming_auc_value (num_thresholds : ℕ) (s : AucState) :
    ℚ × AucState :=
  (compute_auc num_thresholds s, s)

/-! ## Helper lemmas about sums, `zipWith` and `getD` -/

lemma sum_eq_sum_getD : ∀ xs : List ℚ,
    xs.sum = ∑ i in Finset.range xs.length, xs.getD i 0
  | [] => by simp
  | x :: xs => by
      simp only [List.sum_cons, List.length_cons]
      rw [Finset.sum_range_succ']
      simp only [List.getD_cons_succ, List.getD_cons_zero]
      rw [sum_eq_sum_getD xs]
      ring

lemma sum_zipWith_getD {α β : Type} (f : α → β → ℚ) (da : α) (db : β) :
    ∀ (xs : List α) (ys : List β), xs.length = ys.length →
      (List.zipWith f xs ys).sum =
        ∑ i in Finset.range xs.length, f (xs.getD i da) (ys.getD i db)
  | [], [] => by intro h; simp
  | [], y :: ys => by intro h; exact absurd h (by simp)
  | x :: xs, [] => by intro h; exact absurd h (by simp)
  | x :: xs, y :: ys => by
      intro h
      simp only [List.zipWith_cons_cons, List.sum_cons, List.length_cons]
      rw [Finset.sum_range_succ']
      simp only [List.getD_cons_succ, List.getD_cons_zero]
      rw [sum_zipWith_getD f da db xs ys (by simpa using h)]
      ring

lemma getD_zipWith {α β γ : Type} (f : α → β → γ) (da : α) (db : β) (dc : γ) :
    ∀ (xs : List α) (ys : List β) (i : ℕ), i < xs.length → i < ys.length →
      (List.zipWith f xs ys).getD i dc = f (xs.getD i da) (ys.getD i db)
  | [], _, i => by intro h1 _; exact absurd h1 (by simp)
  | _ :: _, [], i => by intro _ h2; exact absurd h2 (by simp)
  | x :: xs, y :: ys, 0 => by intro _ _; simp
  | x :: xs, y :: ys, i + 1 => by
      intro h1 h2
      simp only [List.zipWith_cons_cons, List.getD_cons_succ]
      exact getD_zipWith f da db dc xs ys i (by simpa using h1)
        (by simpa using h2)

lemma length_zipWith {α β γ : Type} (f : α → β → γ) (xs : List α)
    (ys : List β) :
    (List.zipWith f xs ys).length = min xs.length ys.length := by
  simp [List.length_zipWith]

lemma sum_map_getD {α : Type} (f : α → ℚ) (da : α) : ∀ xs : List α,
    (xs.map f).sum = ∑ i in Finset.range xs.length, f (xs.getD i da)
  | [] => by simp
  | x :: xs => by
      simp only [List.map_cons, List.sum_cons, List.length_cons]
      rw [Finset.sum_range_succ']
      simp only [List.getD_cons_succ, List.getD_cons_zero]
      rw [sum_map_getD f da xs]
      ring

lemma zipWith_replicate_one_mul : ∀ xs : List ℚ,
    List.zipWith (· * ·) xs (List.replicate xs.length 1) = xs
  | [] => rfl
  | x :: xs => by
      simp only [List.length_cons, List.replicate_succ, List.zipWith_cons_cons,
        mul_one]
      rw [zipWith_replicate_one_mul xs]

lemma sum_replicate_one (n : ℕ) : (List.replicate n (1 : ℚ)).sum = n := by
  simp [List.sum_replicate]

lemma sum_map_boolToFloat_nonneg (xs : List Bool) :
    0 ≤ (xs.map boolToFloat).sum := by
  apply List.sum_nonneg
  intro x hx
  rcases List.mem_map.1 hx with ⟨b, _, rfl⟩
  by_cases hb : b <;> simp [boolToFloat, hb]

lemma maskZero_sum_nonneg : ∀ (mask : List Bool) (xs : List ℚ),
    (∀ x ∈ xs, 0 ≤ x) →
      0 ≤ (List.zipWith (fun m x => if m then (0 : ℚ) else x) mask xs).sum
  | [], _, _ => by simp
  | _ :: _, [], _ => by simp
  | m :: mask, x :: xs, h => by
      simp only [List.zipWith_cons_cons, List.sum_cons]
      have hx : 0 ≤ x := h x (by simp)
      have ht := maskZero_sum_nonneg mask xs (fun y hy => h y (by simp [hy]))
      by_cases hm : m <;> simp [hm] <;> positivity

lemma mem_zipWith_nonneg (g : ℚ → ℚ → ℚ) (hg : ∀ a b, 0 ≤ g a b) :
    ∀ (xs ys : List ℚ), ∀ x ∈ List.zipWith g xs ys, 0 ≤ x
  | [], _ => by simp
  | _ :: _, [] => by simp
  | a :: xs, b :: ys => by
      intro x hx
      simp only [List.zipWith_cons_cons, List.mem_cons] at hx
      rcases hx with rfl | hx
      · exact hg a b
      · exact mem_zipWith_nonneg g hg xs ys x hx

lemma boolToFloat_nonneg (b : Bool) : 0 ≤ boolToFloat b := by
  by_cases hb : b <;> simp [boolToFloat, hb]

lemma aucRowSum_nonneg (ind : ℚ → ℚ → Bool) (t : ℚ)
    (predictions labels : List ℚ) (ignore_mask : Option (List Bool)) :
    0 ≤ aucRowSum ind t predictions labels ignore_mask := by
  unfold aucRowSum
  cases ignore_mask with
  | none =>
      exact List.sum_nonneg fun x hx =>
        mem_zipWith_nonneg _ (fun a b => boolToFloat_nonneg _) _ _ x hx
  | some mask =>
      exact maskZero_sum_nonneg _ _ fun x hx =>
        mem_zipWith_nonneg _ (fun a b => boolToFloat_nonneg _) _ _ x hx

lemma getD_linspace (a b : ℚ) (n i : ℕ) (hn : 2 ≤ n) (hi : i < n) :
    (linspace a b n).getD i 0 = a + i * ((b - a) / ((n : ℚ) - 1)) := by
  have hn1 : n ≠ 1 := by omega
  unfold linspace
  rw [if_neg hn1]
  rw [List.getD_eq_getElem _ _ (by simpa using hi)]
  simp only [List.getElem_map, List.getElem_range]

lemma getD_map {α : Type} (f : α → ℚ) (da : α) :
    ∀ (xs : List α) (i : ℕ), i < xs.length →
      (xs.map f).getD i 0 = f (xs.getD i da)
  | [], i => by intro h; exact absurd h (by simp)
  | x :: xs, 0 => by intro _; simp
  | x :: xs, i + 1 => by
      intro h
      simp only [List.map_cons, List.getD_cons_succ]
      exact getD_map f da xs i (by simpa using h)

lemma length_linspace (a b : ℚ) (n : ℕ) : (linspace a b n).length = n := by
  unfold linspace
  split
  · simp [*]
  · simp

lemma length_aucThresholds (n : ℕ) : (aucThresholds n).length = n :=
  length_linspace _ _ n

/-- The trapezoidal sum over slices equals the indexed sum over adjacent
pairs. -/
lemma trap_sum_eq : ∀ (u w : List ℚ), u.length = w.length →
    (List.zipWith (· * ·)
      (List.zipWith (· - ·) (u.take (u.length - 1)) (u.drop 1))
      (List.zipWith (fun a b => (a + b) / 2) (w.take (w.length - 1))
        (w.drop 1))).sum
    = ∑ i in Finset.range (u.length - 1),
        (u.getD i 0 - u.getD (i + 1) 0) *
          ((w.getD i 0 + w.getD (i + 1) 0) / 2)
  | [], [] => by intro h; simp
  | [], _ :: _ => by intro h; exact absurd h (by simp)
  | _ :: _, [] => by intro h; exact absurd h (by simp)
  | [x], [y] => by intro h; simp
  | [x], y1 :: y2 :: ys => by intro h; exact absurd h (by simp)
  | x1 :: x2 :: xs, [y] => by intro h; exact absurd h (by simp)
  | x1 :: x2 :: xs, y1 :: y2 :: ys => by
      intro h
      have h' : (x2 :: xs).length = (y2 :: ys).length := by simpa using h
      have key := trap_sum_eq (x2 :: xs) (y2 :: ys) h'
      simp only [List.length_cons, Nat.add_sub_cancel, List.take_succ_cons,
        List.drop_succ_cons, List.drop_zero, List.getD_cons_succ,
        List.getD_cons_zero, List.zipWith_cons_cons, List.sum_cons] at key ⊢
      rw [Finset.sum_range_succ']
      simp only [List.getD_cons_succ, List.getD_cons_zero]
      rw [← key]
      ring

/-- Evaluates `count_condition_update` without a mask: the count gains the number of
`True` cells. -/
lemma count_condition_update_none (c : ℚ) (vs : List Bool) :
    count_condition_update c vs none =
      .ok (c + ∑ i in Finset.range vs.length, boolToFloat (vs.getD i false)) := by
  simp only [count_condition_update]
  rw [sum_map_getD boolToFloat false]

/-- Evaluates `count_condition_update` with a mask: the count gains the number of
`True` cells at unmasked positions. -/
lemma count_condition_update_some (c : ℚ) (vs mask : List Bool)
    (h : vs.length = mask.length) :
    count_condition_update c vs (some mask) =
      .ok (c + ∑ i in Finset.range vs.length,
        (if mask.getD i false then 0 else boolToFloat (vs.getD i false))) := by
  simp only [count_condition_update]
  rw [if_pos h]
  unfold maskSelect
  rw [List.map_zipWith]
  rw [sum_zipWith_getD (fun m v => boolToFloat (if m then false else v))
    false false mask vs h.symm, ← h]
  congr 1
  congr 1
  apply Finset.sum_congr rfl
  intro i _
  rcases Bool.eq_false_or_eq_true (mask.getD i false) with hm | hm <;>
    rw [hm] <;> simp [boolToFloat]

/-- Every successful `count_condition_update` only adds a nonnegative batch
sum to the count. -/
lemma count_condition_update_mono (c : ℚ) (vs : List Bool)
    (mask : Option (List Bool)) (c' : ℚ)
    (h : count_condition_update c vs mask = .ok c') : c ≤ c' := by
  cases mask with
  | none =>
      simp only [count_condition_update, Except.ok.injEq] at h
      have := sum_map_boolToFloat_nonneg vs
      linarith [h ▸ le_refl c']
  | some m =>
      simp only [count_condition_update] at h
      by_cases hl : vs.length = m.length
      · rw [if_pos hl] at h
        simp only [Except.ok.injEq] at h
        have := sum_map_boolToFloat_nonneg (maskSelect m vs)
        linarith [h ▸ le_refl c']
      · rw [if_neg hl] at h
        exact absurd h (by simp)

/-- Characterization of a successful `streaming_auc_update`: the posted state
is `aucIncrements` on the aligned flat data and the reported number is
`compute_auc` of that state. -/
lemma streaming_auc_update_ok (n : ℕ) (s : AucState)
    (predictions labels : Tensor) (mask : Option (List Bool)) (r : ℚ)
    (s' : AucState)
    (h : streaming_auc_update n s predictions labels mask = .ok (r, s')) :
    ∃ pd ld : List ℚ, s' = aucIncrements n s pd ld mask ∧
      r = compute_auc n s' := by
  unfold streaming_auc_update at h
  cases hrs : remove_squeezable_dimensions predictions labels with
  | error e => rw [hrs] at h; exact absurd h (by simp [Bind.bind, Except.bind])
  | ok pl =>
      rw [hrs] at h
      obtain ⟨p', l'⟩ := pl
      simp only [Bind.bind, Except.bind] at h
      by_cases h1 : p'.shape ≠ l'.shape
      · rw [if_pos h1] at h; exact absurd h (by simp)
      · rw [if_neg h1] at h
        by_cases h2 : p'.rank ≠ 1
        · rw [if_pos h2] at h; exact absurd h (by simp)
        · rw [if_neg h2] at h
          by_cases h3 : l'.rank ≠ 1
          · rw [if_pos h3] at h; exact absurd h (by simp)
          · rw [if_neg h3] at h
            cases hcm : aucCheckMask l' mask with
            | error e =>
                rw [hcm] at h
                exact absurd h (by simp)
            | ok u =>
                rw [hcm] at h
                simp only [Except.ok.injEq, Prod.mk.injEq] at h
                exact ⟨p'.data, l'.data, h.2.symm, by rw [← h.1, ← h.2]⟩

lemma boolToFloat_is_tp (p l : ℚ) :
    boolToFloat (is_true_positive p l) = if l = 1 ∧ p = 1 then 1 else 0 := by
  by_cases h1 : l = 1 <;> by_cases h2 : p = 1 <;>
    simp [is_true_positive, boolToFloat, h1, h2]

lemma boolToFloat_is_fp (p l : ℚ) :
    boolToFloat (is_false_positive p l) = if l = 0 ∧ p = 1 then 1 else 0 := by
  by_cases h1 : l = 0 <;> by_cases h2 : p = 1 <;>
    simp [is_false_positive, boolToFloat, h1, h2]

lemma boolToFloat_is_fn (p l : ℚ) :
    boolToFloat (is_false_negative p l) = if l = 1 ∧ p = 0 then 1 else 0 := by
  by_cases h1 : l = 1 <;> by_cases h2 : p = 0 <;>
    simp [is_false_negative, boolToFloat, h1, h2]

lemma boolToFloat_is_tn (p l : ℚ) :
    boolToFloat (is_true_negative p l) = if l = 0 ∧ p = 0 then 1 else 0 := by
  by_cases h1 : l = 0 <;> by_cases h2 : p = 0 <;>
    simp [is_true_negative, boolToFloat, h1, h2]

/-- The classified prediction hits 1 exactly when the score clears the
threshold. -/
lemma classify_eq_one (t pj : ℚ) :
    ((if t < pj then (1 : ℚ) else 0) = 1) ↔ t < pj := by
  by_cases hp : t < pj <;> simp [hp]

lemma classify_eq_zero (t pj : ℚ) :
    ((if t < pj then (1 : ℚ) else 0) = 0) ↔ ¬t < pj := by
  by_cases hp : t < pj <;> simp [hp]

/-- The unmasked per-threshold row sum of `streaming_auc` as an indexed
sum. -/
lemma aucRowSum_none_eq (ind : ℚ → ℚ → Bool) (t : ℚ) (pd ld : List ℚ)
    (h : pd.length = ld.length) :
    aucRowSum ind t pd ld none =
      ∑ j in Finset.range ld.length,
        boolToFloat (ind (if t < pd.getD j 0 then 1 else 0) (ld.getD j 0)) := by
  have hrow : aucRowSum ind t pd ld none =
      (List.zipWith (fun lab p => boolToFloat (ind p lab)) ld
        (threshClassify t pd)).sum := rfl
  rw [hrow]
  rw [sum_zipWith_getD (fun lab p => boolToFloat (ind p lab)) 0 0 ld
    (threshClassify t pd) (by unfold threshClassify; simp [h])]
  apply Finset.sum_congr rfl
  intro j hj
  have hjp : j < pd.length := by
    rw [h]; exact Finset.mem_range.1 hj
  congr 1
  unfold threshClassify
  rw [getD_map _ 0 pd j hjp]

/-- Cell `i` of each counter of `aucIncrements` gains the row sum at
threshold `i`. -/
lemma getD_aucIncrements (n : ℕ) (s : AucState) (pd ld : List ℚ)
    (mask : Option (List Bool)) (i : ℕ) (hi : i < n)
    (h1 : s.true_positives.length = n) (h2 : s.false_negatives.length = n)
    (h3 : s.true_negatives.length = n) (h4 : s.false_positives.length = n) :
    (aucIncrements n s pd ld mask).true_positives.getD i 0 =
        s.true_positives.getD i 0 +
          aucRowSum is_true_positive ((aucThresholds n).getD i 0) pd ld mask ∧
    (aucIncrements n s pd ld mask).false_negatives.getD i 0 =
        s.false_negatives.getD i 0 +
          aucRowSum is_false_negative ((aucThresholds n).getD i 0) pd ld mask ∧
    (aucIncrements n s pd ld mask).true_negatives.getD i 0 =
        s.true_negatives.getD i 0 +
          aucRowSum is_true_negative ((aucThresholds n).getD i 0) pd ld mask ∧
    (aucIncrements n s pd ld mask).false_positives.getD i 0 =
        s.false_positives.getD i 0 +
          aucRowSum is_false_positive ((aucThresholds n).getD i 0) pd ld mask := by
  have hts : i < (aucThresholds n).length := by
    rw [length_aucThresholds]; exact hi
  unfold aucIncrements
  refine ⟨?_, ?_, ?_, ?_⟩ <;>
    exact getD_zipWith _ 0 0 0 _ _ i hts (by omega)

/-- Lengths of the four counter vectors of `aucIncrements`. -/
lemma length_aucIncrements (n : ℕ) (s : AucState) (pd ld : List ℚ)
    (mask : Option (List Bool))
    (h1 : s.true_positives.length = n) (h2 : s.false_negatives.length = n)
    (h3 : s.true_negatives.length = n) (h4 : s.false_positives.length = n) :
    (aucIncrements n s pd ld mask).true_positives.length = n ∧
    (aucIncrements n s pd ld mask).false_negatives.length = n ∧
    (aucIncrements n s pd ld mask).true_negatives.length = n ∧
    (aucIncrements n s pd ld mask).false_positives.length = n := by
  unfold aucIncrements
  refine ⟨?_, ?_, ?_, ?_⟩ <;>
    simp [List.length_zipWith, length_aucThresholds, h1, h2, h3, h4]

/-- Equal known ranks pass through the alignment unchanged. -/
lemma remove_squeezable_same_rank (p l : Tensor) (h : p.rank = l.rank) :
    remove_squeezable_dimensions p l = .ok (p, l) := by
  unfold remove_squeezable_dimensions
  rw [if_neg (by omega), if_neg (by omega)]

lemma getD_replicate_zero : ∀ n i : ℕ, (List.replicate n (0 : ℚ)).getD i 0 = 0
  | 0, _ => by simp
  | n + 1, 0 => by simp [List.replicate_succ]
  | n + 1, i + 1 => by
      simp only [List.replicate_succ, List.getD_cons_succ]
      exact getD_replicate_zero n i

lemma boolToFloat_is_tp_at (t pj lj : ℚ) :
    boolToFloat (is_true_positive (if t < pj then 1 else 0) lj) =
      if lj = 1 ∧ t < pj then 1 else 0 := by
  rw [boolToFloat_is_tp]
  simp only [classify_eq_one]

lemma boolToFloat_is_fn_at (t pj lj : ℚ) :
    boolToFloat (is_false_negative (if t < pj then 1 else 0) lj) =
      if lj = 1 ∧ ¬t < pj then 1 else 0 := by
  rw [boolToFloat_is_fn]
  simp only [classify_eq_zero]

lemma boolToFloat_is_fp_at (t pj lj : ℚ) :
    boolToFloat (is_false_positive (if t < pj then 1 else 0) lj) =
      if lj = 0 ∧ t < pj then 1 else 0 := by
  rw [boolToFloat_is_fp]
  simp only [classify_eq_one]

lemma boolToFloat_is_tn_at (t pj lj : ℚ) :
    boolToFloat (is_true_negative (if t < pj then 1 else 0) lj) =
      if lj = 0 ∧ ¬t < pj then 1 else 0 := by
  rw [boolToFloat_is_tn]
  simp only [classify_eq_zero]

/-- Rewrites `compute_auc` as the indexed trapezoidal sum over adjacent threshold
cells, with the element-wise `fpr` and `recall` formulas spelled out. -/
lemma compute_auc_eq (n : ℕ) (s : AucState)
    (h1 : s.true_positives.length = n) (h2 : s.false_negatives.length = n)
    (h3 : s.true_negatives.length = n) (h4 : s.false_positives.length = n) :
    compute_auc n s = ∑ i in Finset.range (n - 1),
      (s.false_positives.getD i 0 /
          (s.false_positives.getD i 0 + s.true_negatives.getD i 0 + epsilon) -
        s.false_positives.getD (i + 1) 0 /
          (s.false_positives.getD (i + 1) 0 +
            s.true_negatives.getD (i + 1) 0 + epsilon)) *
      (((s.true_positives.getD i 0 + epsilon) /
          (s.true_positives.getD i 0 + s.false_negatives.getD i 0 + epsilon) +
        (s.true_positives.getD (i + 1) 0 + epsilon) /
          (s.true_positives.getD (i + 1) 0 +
            s.false_negatives.getD (i + 1) 0 + epsilon)) / 2) := by
  unfold compute_auc false_positive_rate auc_recall
  dsimp only
  have hfpr : (List.zipWith (fun f t => f / (f + t + epsilon))
      s.false_positives s.true_negatives).length = n := by
    simp [List.length_zipWith, h3, h4]
  have hrec : (List.zipWith (fun t f => (t + epsilon) / (t + f + epsilon))
      s.true_positives s.false_negatives).length = n := by
    simp [List.length_zipWith, h1, h2]
  have e1 : (List.zipWith (fun f t => f / (f + t + epsilon))
        s.false_positives s.true_negatives).take (n - 1) =
      (List.zipWith (fun f t => f / (f + t + epsilon))
        s.false_positives s.true_negatives).take
        ((List.zipWith (fun f t => f / (f + t + epsilon))
          s.false_positives s.true_negatives).length - 1) := by
    rw [hfpr]
  have e2 : (List.zipWith (fun t f => (t + epsilon) / (t + f + epsilon))
        s.true_positives s.false_negatives).take (n - 1) =
      (List.zipWith (fun t f => (t + epsilon) / (t + f + epsilon))
        s.true_positives s.false_negatives).take
        ((List.zipWith (fun t f => (t + epsilon) / (t + f + epsilon))
          s.true_positives s.false_negatives).length - 1) := by
    rw [hrec]
  rw [e1, e2, trap_sum_eq _ _ (by rw [hfpr, hrec]), hfpr]
  apply Finset.sum_congr rfl
  intro i hi
  have hin : i < n - 1 := Finset.mem_range.1 hi
  have hi1 : i < n := by omega
  have hi2 : i + 1 < n := by omega
  rw [getD_zipWith (fun f t => f / (f + t + epsilon)) 0 0 0
      s.false_positives s.true_negatives i (by omega) (by omega),
    getD_zipWith (fun f t => f / (f + t + epsilon)) 0 0 0
      s.false_positives s.true_negatives (i + 1) (by omega) (by omega),
    getD_zipWith (fun t f => (t + epsilon) / (t + f + epsilon)) 0 0 0
      s.true_positives s.false_negatives i (by omega) (by omega),
    getD_zipWith (fun t f => (t + epsilon) / (t + f + epsilon)) 0 0 0
      s.true_positives s.false_negatives (i + 1) (by omega) (by omega)]

/-! ## Claims -/

/-- C1: for every metric constructor embedded from the module (streaming
mean, precision, recall, auc) and every batch, the number reported by a
successful update expression equals what the value expression subsequently
reports on the post-increment accumulator state. -/
theorem update_result_equals_next_value :
    (∀ (s : MeanState) (values : List ℚ) (weights : Option (List ℚ)) (r : ℚ)
        (s' : MeanState), streaming_mean_update s values weights = .ok (r, s') →
        (streaming_mean_value s').1 = r) ∧
    (∀ (s : PrecisionState) (p l : List ℚ) (m : Option (List Bool)) (r : ℚ)
        (s' : PrecisionState),
        streaming_precision_update s p l m = .ok (r, s') →
        (streaming_precision_value s').1 = r) ∧
    (∀ (s : RecallState) (p l : List ℚ) (m : Option (List Bool)) (r : ℚ)
        (s' : RecallState),
        streaming_recall_update s p l m = .ok (r, s') →
        (streaming_recall_value s').1 = r) ∧
    (∀ (n : ℕ) (s : AucState) (p l : Tensor) (m : Option (List Bool)) (r : ℚ)
        (s' : AucState),
        streaming_auc_update n s p l m = .ok (r, s') →
        (streaming_auc_value n s').1 = r) := by
  refine ⟨?_, ?_, ?_, ?_⟩
  · intro s values weights r s' h
    cases weights with
    | none =>
        simp only [streaming_mean_update, Except.ok.injEq, Prod.mk.injEq] at h
        obtain ⟨hr, hs⟩ := h
        subst hs
        simpa [streaming_mean_value] using hr
    | some w =>
        simp only [streaming_mean_update] at h
        by_cases hl : values.length = w.length
        · rw [if_pos hl] at h
          simp only [Except.ok.injEq, Prod.mk.injEq] at h
          obtain ⟨hr, hs⟩ := h
          subst hs
          simpa [streaming_mean_value] using hr
        · rw [if_neg hl] at h
          exact absurd h (by simp)
  · intro s p l m r s' h
    simp only [streaming_precision_update] at h
    by_cases hl : p.length = l.length
    · rw [if_pos hl] at h
      cases htp : count_condition_update s.true_positives
          (true_positives_batch p l) m with
      | error e => rw [htp] at h; simp [Bind.bind, Except.bind] at h
      | ok tp =>
          cases hfp : count_condition_update s.false_positives
              (false_positives_batch p l) m with
          | error e => rw [htp, hfp] at h; simp [Bind.bind, Except.bind] at h
          | ok fp =>
              rw [htp, hfp] at h
              simp only [Bind.bind, Except.bind, Except.ok.injEq,
                Prod.mk.injEq] at h
              obtain ⟨hr, hs⟩ := h
              subst hs
              simpa [streaming_precision_value] using hr
    · rw [if_neg hl] at h
      exact absurd h (by simp)
  · intro s p l m r s' h
    simp only [streaming_recall_update] at h
    by_cases hl : p.length = l.length
    · rw [if_pos hl] at h
      cases htp : count_condition_update s.true_positives
          (true_positives_batch p l) m with
      | error e => rw [htp] at h; simp [Bind.bind, Except.bind] at h
      | ok tp =>
          cases hfn : count_condition_update s.false_negatives
              (false_negatives_batch p l) m with
          | error e => rw [htp, hfn] at h; simp [Bind.bind, Except.bind] at h
          | ok fn =>
              rw [htp, hfn] at h
              simp only [Bind.bind, Except.bind, Except.ok.injEq,
                Prod.mk.injEq] at h
              obtain ⟨hr, hs⟩ := h
              subst hs
              simpa [streaming_recall_value] using hr
    · rw [if_neg hl] at h
      exact absurd h (by simp)
  · intro n s p l m r s' h
    obtain ⟨pd, ld, _, hr⟩ := streaming_auc_update_ok n s p l m r s' h
    rw [hr]
    simp [streaming_auc_value]

/-- C1 witness: the contract at a concrete batch of each metric kind. -/
theorem update_result_equals_next_value_witness :
    (streaming_mean_value ⟨12, 3⟩).1 = 4 ∧
    (streaming_precision_value ⟨1, 1⟩).1 = 1 / 2 ∧
    (streaming_recall_value ⟨1, 1⟩).1 = 1 / 2 := by
  refine ⟨?_, ?_, ?_⟩
  · exact update_result_equals_next_value.1 ⟨0, 0⟩ [2, 4, 6] none 4 ⟨12, 3⟩
      (by norm_num [streaming_mean_update, compute_mean])
  · exact update_result_equals_next_value.2.1 ⟨0, 0⟩ [1, 1, 0, 0] [1, 0, 1, 0]
      none (1 / 2) ⟨1, 1⟩
      (by norm_num [streaming_precision_update, compute_precision,
        count_condition_update, true_positives_batch, false_positives_batch,
        is_true_positive, is_false_positive, boolToFloat, List.zipWith,
        Bind.bind, Except.bind])
  · exact update_result_equals_next_value.2.2.1 ⟨0, 0⟩ [1, 1, 0, 0]
      [1, 0, 1, 0] none (1 / 2) ⟨1, 1⟩
      (by norm_num [streaming_recall_update, compute_recall,
        count_condition_update, true_positives_batch, false_negatives_batch,
        is_true_positive, is_false_negative, boolToFloat, List.zipWith,
        Bind.bind, Except.bind])

/-- C2: the update of `streaming_mean` increments `total` by the weighted
sum of the values and `count` by the sum of the weights when weights are
supplied, and by the plain sum and the element count otherwise; the reported
value is `total/count` when `count > 0` and `0` otherwise; mean of
`[2,4,6]` unweighted is 4 and with weights `[1,0,1]` is also 4. -/
theorem streaming_mean_spec :
    (∀ (s : MeanState) (values w : List ℚ) (r : ℚ) (s' : MeanState),
        streaming_mean_update s values (some w) = .ok (r, s') →
        s'.total = s.total + ∑ i in Finset.range values.length,
            values.getD i 0 * w.getD i 0 ∧
        s'.count = s.count + ∑ i in Finset.range w.length, w.getD i 0 ∧
        r = (if 0 < s'.count then s'.total / s'.count else 0)) ∧
    (∀ (s : MeanState) (values : List ℚ) (r : ℚ) (s' : MeanState),
        streaming_mean_update s values none = .ok (r, s') →
        s'.total = s.total + ∑ i in Finset.range values.length,
            values.getD i 0 ∧
        s'.count = s.count + (values.length : ℚ) ∧
        r = (if 0 < s'.count then s'.total / s'.count else 0)) ∧
    (∀ s : MeanState, (streaming_mean_value s).1 =
        (if 0 < s.count then s.total / s.count else 0)) ∧
    streaming_mean_update ⟨0, 0⟩ [2, 4, 6] none = .ok (4, ⟨12, 3⟩) ∧
    streaming_mean_update ⟨0, 0⟩ [2, 4, 6] (some [1, 0, 1]) =
      .ok (4, ⟨8, 2⟩) := by
  refine ⟨?_, ?_, fun s => rfl, ?_, ?_⟩
  · intro s values w r s' h
    simp only [streaming_mean_update] at h
    by_cases hl : values.length = w.length
    · rw [if_pos hl] at h
      simp only [Except.ok.injEq, Prod.mk.injEq] at h
      obtain ⟨hr, hs⟩ := h
      subst hs
      refine ⟨?_, ?_, ?_⟩
      · show s.total + (List.zipWith (· * ·) values w).sum = _
        rw [sum_zipWith_getD (· * ·) 0 0 values w hl]
      · show s.count + w.sum = _
        rw [sum_eq_sum_getD w]
      · rw [← hr]
        rfl
    · rw [if_neg hl] at h
      exact absurd h (by simp)
  · intro s values r s' h
    simp only [streaming_mean_update, Except.ok.injEq, Prod.mk.injEq] at h
    obtain ⟨hr, hs⟩ := h
    subst hs
    refine ⟨?_, rfl, ?_⟩
    · show s.total + values.sum = _
      rw [sum_eq_sum_getD values]
    · rw [← hr]
      rfl
  · norm_num [streaming_mean_update, compute_mean]
  · norm_num [streaming_mean_update, compute_mean]

/-- C2 witness: the weighted increment formula instantiated on values
`[2,4,6]` with weights `[1,0,1]` starting from the zero state. -/
theorem streaming_mean_spec_witness :
    (⟨8, 2⟩ : MeanState).total = (0 : ℚ) + ∑ i in Finset.range 3,
      ([2, 4, 6] : List ℚ).getD i 0 * ([1, 0, 1] : List ℚ).getD i 0 :=
  (streaming_mean_spec.1 ⟨0, 0⟩ [2, 4, 6] [1, 0, 1] 4 ⟨8, 2⟩
    (by norm_num [streaming_mean_update, compute_mean])).1

/-- C3: precision and recall accumulate confusion counters whose increments
are sums of element-wise indicators computed from the raw predictions and
labels (`label = 1 AND prediction = 1` for TP, and analogously for FP and
FN), with the ignore mask zeroing the derived indicator contribution at
masked positions before summation; precision finalizes to `TP/(TP+FP)` and
recall to `TP/(TP+FN)`; on predictions `[1,1,0,0]` and labels `[1,0,1,0]`
both report `1/2`. -/
theorem confusion_matrix_spec :
    (∀ (s : PrecisionState) (p l : List ℚ) (mask : List Bool) (r : ℚ)
        (s' : PrecisionState), p.length = l.length → p.length = mask.length →
        streaming_precision_update s p l (some mask) = .ok (r, s') →
        s'.true_positives = s.true_positives + ∑ i in Finset.range p.length,
          (if mask.getD i false then 0
           else if l.getD i 0 = 1 ∧ p.getD i 0 = 1 then 1 else 0) ∧
        s'.false_positives = s.false_positives + ∑ i in Finset.range p.length,
          (if mask.getD i false then 0
           else if l.getD i 0 = 0 ∧ p.getD i 0 = 1 then 1 else 0) ∧
        r = (if 0 < s'.true_positives + s'.false_positives then
              s'.true_positives / (s'.true_positives + s'.false_positives)
             else 0)) ∧
    (∀ (s : RecallState) (p l : List ℚ) (mask : List Bool) (r : ℚ)
        (s' : RecallState), p.length = l.length → p.length = mask.length →
        streaming_recall_update s p l (some mask) = .ok (r, s') →
        s'.true_positives = s.true_positives + ∑ i in Finset.range p.length,
          (if mask.getD i false then 0
           else if l.getD i 0 = 1 ∧ p.getD i 0 = 1 then 1 else 0) ∧
        s'.false_negatives = s.false_negatives + ∑ i in Finset.range p.length,
          (if mask.getD i false then 0
           else if l.getD i 0 = 1 ∧ p.getD i 0 = 0 then 1 else 0) ∧
        r = (if 0 < s'.true_positives + s'.false_negatives then
              s'.true_positives / (s'.true_positives + s'.false_negatives)
             else 0)) ∧
    streaming_precision_update ⟨0, 0⟩ [1, 1, 0, 0] [1, 0, 1, 0] none =
      .ok (1 / 2, ⟨1, 1⟩) ∧
    streaming_recall_update ⟨0, 0⟩ [1, 1, 0, 0] [1, 0, 1, 0] none =
      .ok (1 / 2, ⟨1, 1⟩) := by
  refine ⟨?_, ?_, ?_, ?_⟩
  · intro s p l mask r s' hpl hpm h
    simp only [streaming_precision_update] at h
    rw [if_pos hpl] at h
    have hbtp : (true_positives_batch p l).length = p.length := by
      unfold true_positives_batch
      simp [List.length_zipWith, hpl]
    have hbfp : (false_positives_batch p l).length = p.length := by
      unfold false_positives_batch
      simp [List.length_zipWith, hpl]
    rw [count_condition_update_some s.true_positives _ mask
      (by rw [hbtp, hpm])] at h
    rw [count_condition_update_some s.false_positives _ mask
      (by rw [hbfp, hpm])] at h
    simp only [Bind.bind, Except.bind, Except.ok.injEq, Prod.mk.injEq] at h
    obtain ⟨hr, hs⟩ := h
    subst hs
    refine ⟨?_, ?_, ?_⟩
    · show s.true_positives + _ = _
      rw [hbtp]
      congr 1
      apply Finset.sum_congr rfl
      intro i hi
      have hip : i < p.length := Finset.mem_range.1 hi
      simp only [true_positives_batch]
      rw [getD_zipWith is_true_positive 0 0 false p l i hip (hpl ▸ hip)]
      rw [boolToFloat_is_tp]
    · show s.false_positives + _ = _
      rw [hbfp]
      congr 1
      apply Finset.sum_congr rfl
      intro i hi
      have hip : i < p.length := Finset.mem_range.1 hi
      simp only [false_positives_batch]
      rw [getD_zipWith is_false_positive 0 0 false p l i hip (hpl ▸ hip)]
      rw [boolToFloat_is_fp]
    · rw [← hr]
      rfl
  · intro s p l mask r s' hpl hpm h
    simp only [streaming_recall_update] at h
    rw [if_pos hpl] at h
    have hbtp : (true_positives_batch p l).length = p.length := by
      unfold true_positives_batch
      simp [List.length_zipWith, hpl]
    have hbfn : (false_negatives_batch p l).length = p.length := by
      unfold false_negatives_batch
      simp [List.length_zipWith, hpl]
    rw [count_condition_update_some s.true_positives _ mask
      (by rw [hbtp, hpm])] at h
    rw [count_condition_update_some s.false_negatives _ mask
      (by rw [hbfn, hpm])] at h
    simp only [Bind.bind, Except.bind, Except.ok.injEq, Prod.mk.injEq] at h
    obtain ⟨hr, hs⟩ := h
    subst hs
    refine ⟨?_, ?_, ?_⟩
    · show s.true_positives + _ = _
      rw [hbtp]
      congr 1
      apply Finset.sum_congr rfl
      intro i hi
      have hip : i < p.length := Finset.mem_range.1 hi
      simp only [true_positives_batch]
      rw [getD_zipWith is_true_positive 0 0 false p l i hip (hpl ▸ hip)]
      rw [boolToFloat_is_tp]
    · show s.false_negatives + _ = _
      rw [hbfn]
      congr 1
      apply Finset.sum_congr rfl
      intro i hi
      have hip : i < p.length := Finset.mem_range.1 hi
      simp only [false_negatives_batch]
      rw [getD_zipWith is_false_negative 0 0 false p l i hip (hpl ▸ hip)]
      rw [boolToFloat_is_fn]
    · rw [← hr]
      rfl
  · norm_num [streaming_precision_update, compute_precision,
      count_condition_update, true_positives_batch, false_positives_batch,
      is_true_positive, is_false_positive, boolToFloat, List.zipWith,
      Bind.bind, Except.bind]
  · norm_num [streaming_recall_update, compute_recall,
      count_condition_update, true_positives_batch, false_negatives_batch,
      is_true_positive, is_false_negative, boolToFloat, List.zipWith,
      Bind.bind, Except.bind]

/-- C3 witness: the masked TP increment formula instantiated on predictions
`[1,1]`, labels `[1,0]` and mask `[false,true]` from the zero state. -/
theorem confusion_matrix_spec_witness :
    (⟨1, 0⟩ : PrecisionState).true_positives = (0 : ℚ) +
      ∑ i in Finset.range 2,
        (if ([false, true] : List Bool).getD i false then 0
         else if ([1, 0] : List ℚ).getD i 0 = 1 ∧
             ([1, 1] : List ℚ).getD i 0 = 1 then 1 else 0) :=
  (confusion_matrix_spec.1 ⟨0, 0⟩ [1, 1] [1, 0] [false, true] 1 ⟨1, 0⟩
    (by norm_num) (by norm_num)
    (by norm_num [streaming_precision_update, compute_precision,
      count_condition_update, true_positives_batch, false_positives_batch,
      is_true_positive, is_false_positive, maskSelect, boolToFloat,
      List.zipWith, Bind.bind, Except.bind])).1

/-- C5: whenever the denominator accumulator of a finalization formula is
exactly zero (count for the mean family, TP+FP for precision, TP+FN for
recall), the value expression reports exactly 0. -/
theorem zero_denominator_reports_zero :
    (∀ s : MeanState, s.count = 0 → (streaming_mean_value s).1 = 0) ∧
    (∀ s : PrecisionState, s.true_positives + s.false_positives = 0 →
        (streaming_precision_value s).1 = 0) ∧
    (∀ s : RecallState, s.true_positives + s.false_negatives = 0 →
        (streaming_recall_value s).1 = 0) := by
  refine ⟨?_, ?_, ?_⟩
  · intro s h
    simp [streaming_mean_value, compute_mean, h]
  · intro s h
    simp [streaming_precision_value, compute_precision, h]
  · intro s h
    simp [streaming_recall_value, compute_recall, h]

/-- C5 witness: concrete zero-denominator states report 0. -/
theorem zero_denominator_reports_zero_witness :
    (streaming_mean_value ⟨5, 0⟩).1 = 0 ∧
    (streaming_precision_value ⟨0, 0⟩).1 = 0 ∧
    (streaming_recall_value ⟨0, 0⟩).1 = 0 :=
  ⟨zero_denominator_reports_zero.1 ⟨5, 0⟩ rfl,
   zero_denominator_reports_zero.2.1 ⟨0, 0⟩ (by norm_num),
   zero_denominator_reports_zero.2.2 ⟨0, 0⟩ (by norm_num)⟩

/-- C6 counterexample: with predictions of shape `[2,2]` and labels of shape
`[2]` the known ranks differ by exactly one, yet the alignment step does not
drop the last dimension of the higher-rank array — it fails, because that
dimension is 2, not 1. -/
theorem squeeze_drop_counterexample :
    remove_squeezable_dimensions ⟨[2, 2], [1, 2, 3, 4]⟩ ⟨[2], [5, 6]⟩ =
      .error "Can not squeeze dim, expected a dimension of 1" ∧
    remove_squeezable_dimensions ⟨[2, 2], [1, 2, 3, 4]⟩ ⟨[2], [5, 6]⟩ ≠
      .ok (⟨[2], [1, 2, 3, 4]⟩, ⟨[2], [5, 6]⟩) := by
  have h : remove_squeezable_dimensions ⟨[2, 2], [1, 2, 3, 4]⟩
      ⟨[2], [5, 6]⟩ =
      .error "Can not squeeze dim, expected a dimension of 1" := by
    norm_num [remove_squeezable_dimensions, squeezeLast, Tensor.rank,
      Bind.bind, Except.bind]
  refine ⟨h, ?_⟩
  rw [h]
  intro hc
  exact Except.noConfusion hc

/-- C6 (amended): when the known ranks differ by exactly one AND the last
dimension of the higher-rank array is 1, that dimension is dropped before
shape-compatibility validation; when the ranks are equal, both arrays pass
through unchanged. -/
theorem squeeze_alignment_spec :
    (∀ p l : Tensor, p.rank = l.rank →
        remove_squeezable_dimensions p l = .ok (p, l)) ∧
    (∀ p l : Tensor, l.rank = p.rank + 1 → l.shape.getLast? = some 1 →
        remove_squeezable_dimensions p l =
          .ok (p, ⟨l.shape.dropLast, l.data⟩)) ∧
    (∀ p l : Tensor, p.rank = l.rank + 1 → p.shape.getLast? = some 1 →
        remove_squeezable_dimensions p l =
          .ok (⟨p.shape.dropLast, p.data⟩, l)) := by
  refine ⟨?_, ?_, ?_⟩
  · intro p l h
    unfold remove_squeezable_dimensions
    rw [if_neg (by omega), if_neg (by omega)]
  · intro p l h hl
    unfold remove_squeezable_dimensions
    rw [if_pos h]
    unfold squeezeLast
    rw [if_pos hl]
    simp [Bind.bind, Except.bind]
  · intro p l h hl
    unfold remove_squeezable_dimensions
    rw [if_neg (by omega), if_pos h]
    unfold squeezeLast
    rw [if_pos hl]
    simp [Bind.bind, Except.bind]

/-- C6 witness: the amended rule at equal ranks and at each
singleton-trailing-dimension case. -/
theorem squeeze_alignment_spec_witness :
    remove_squeezable_dimensions ⟨[3], [1, 2, 3]⟩ ⟨[3], [4, 5, 6]⟩ =
      .ok (⟨[3], [1, 2, 3]⟩, ⟨[3], [4, 5, 6]⟩) ∧
    remove_squeezable_dimensions ⟨[2], [1, 2]⟩ ⟨[2, 1], [3, 4]⟩ =
      .ok (⟨[2], [1, 2]⟩, ⟨[2], [3, 4]⟩) ∧
    remove_squeezable_dimensions ⟨[2, 1], [1, 2]⟩ ⟨[2], [3, 4]⟩ =
      .ok (⟨[2], [1, 2]⟩, ⟨[2], [3, 4]⟩) :=
  ⟨squeeze_alignment_spec.1 _ _ rfl,
   squeeze_alignment_spec.2.1 _ _ rfl rfl,
   squeeze_alignment_spec.2.2 _ _ rfl rfl⟩

/-- C7 counterexample: `streaming_auc` does not fail on a rank-2 predictions
tensor of shape `[2,1]` paired with rank-1 labels — the alignment step
squeezes it to rank 1 first and the update succeeds. -/
theorem auc_rank_check_counterexample :
    (streaming_auc_update 2 (aucInit 2) ⟨[2, 1], [3 / 10, 7 / 10]⟩
      ⟨[2], [1, 0]⟩ none).isOk = true := rfl

/-- C7 (amended): `streaming_auc` fails — returning an error and leaving
every counter untouched — whenever, after the squeeze alignment, the
prediction or label tensor is not rank 1. -/
theorem auc_rank_check_spec (n : ℕ) (s : AucState) (p l : Tensor)
    (mask : Option (List Bool)) (p' l' : Tensor)
    (halign : remove_squeezable_dimensions p l = .ok (p', l'))
    (hrank : p'.rank ≠ 1 ∨ l'.rank ≠ 1) :
    ∃ msg, streaming_auc_update n s p l mask = .error msg := by
  unfold streaming_auc_update
  rw [halign]
  simp only [Bind.bind, Except.bind]
  by_cases h1 : p'.shape ≠ l'.shape
  · rw [if_pos h1]
    exact ⟨_, rfl⟩
  · rw [if_neg h1]
    push_neg at h1
    by_cases hp : p'.rank ≠ 1
    · rw [if_pos hp]
      exact ⟨_, rfl⟩
    · rw [if_neg hp]
      push_neg at hp
      have hlr : l'.rank = 1 → False := by
        intro hl1
        rcases hrank with h2 | h2
        · exact h2 hp
        · exact h2 hl1
      rw [if_pos (by
        intro hl1
        exact hlr hl1)]
      exact ⟨_, rfl⟩

/-- C7 witness: on rank-2 predictions and labels of equal shape the update
reports an error. -/
theorem auc_rank_check_spec_witness :
    ∃ msg, streaming_auc_update 2 (aucInit 2) ⟨[2, 2], [1, 2, 3, 4]⟩
      ⟨[2, 2], [1, 0, 1, 0]⟩ none = .error msg :=
  auc_rank_check_spec 2 (aucInit 2) ⟨[2, 2], [1, 2, 3, 4]⟩
    ⟨[2, 2], [1, 0, 1, 0]⟩ none ⟨[2, 2], [1, 2, 3, 4]⟩
    ⟨[2, 2], [1, 0, 1, 0]⟩ rfl (Or.inl (by norm_num [Tensor.rank]))

/-- C8: no value expression mutates accumulator state: each returns the
state it was given, and two consecutive evaluations with no intervening
update report identical results. -/
theorem value_expressions_are_pure :
    (∀ s : MeanState, (streaming_mean_value s).2 = s ∧
        (streaming_mean_value (streaming_mean_value s).2).1 =
          (streaming_mean_value s).1) ∧
    (∀ c : ℚ, (count_condition_value c).2 = c ∧
        (count_condition_value (count_condition_value c).2).1 =
          (count_condition_value c).1) ∧
    (∀ s : PrecisionState, (streaming_precision_value s).2 = s ∧
        (streaming_precision_value (streaming_precision_value s).2).1 =
          (streaming_precision_value s).1) ∧
    (∀ s : RecallState, (streaming_recall_value s).2 = s ∧
        (streaming_recall_value (streaming_recall_value s).2).1 =
          (streaming_recall_value s).1) ∧
    (∀ (n : ℕ) (s : AucState), (streaming_auc_value n s).2 = s ∧
        (streaming_auc_value n (streaming_auc_value n s).2).1 =
          (streaming_auc_value n s).1) :=
  ⟨fun s => ⟨rfl, rfl⟩, fun c => ⟨rfl, rfl⟩, fun s => ⟨rfl, rfl⟩,
   fun s => ⟨rfl, rfl⟩, fun n s => ⟨rfl, rfl⟩⟩

/-- C4: on a successful unmasked update of rank-1 data, `streaming_auc`
uses `num_thresholds` evenly spaced cut points over
`[0 - 1e-7, 1 + 1e-7]`, increments each confusion cell with the count of
elements classified by `score > threshold` at that cell's threshold, and
reports the trapezoidal sum over the `num_thresholds - 1` adjacent pairs of
`fpr = FP/(FP+TN+1e-6)` and `recall = (TP+1e-6)/(TP+FN+1e-6)`. -/
theorem streaming_auc_algorithm_spec (n : ℕ) (hn : 2 ≤ n) (s : AucState)
    (h1 : s.true_positives.length = n) (h2 : s.false_negatives.length = n)
    (h3 : s.true_negatives.length = n) (h4 : s.false_positives.length = n)
    (pd ld : List ℚ) (hpl : pd.length = ld.length) (r : ℚ) (s' : AucState)
    (h : streaming_auc_update n s ⟨[pd.length], pd⟩ ⟨[ld.length], ld⟩ none =
      .ok (r, s')) :
    (∀ i, i < n → (aucThresholds n).getD i 0 =
        (0 - kepsilon) + (i : ℚ) *
          (((1 + kepsilon) - (0 - kepsilon)) / ((n : ℚ) - 1))) ∧
    (∀ i, i < n →
        s'.true_positives.getD i 0 = s.true_positives.getD i 0 +
          ∑ j in Finset.range ld.length,
            (if ld.getD j 0 = 1 ∧ (aucThresholds n).getD i 0 < pd.getD j 0
             then 1 else 0) ∧
        s'.false_negatives.getD i 0 = s.false_negatives.getD i 0 +
          ∑ j in Finset.range ld.length,
            (if ld.getD j 0 = 1 ∧ ¬(aucThresholds n).getD i 0 < pd.getD j 0
             then 1 else 0) ∧
        s'.true_negatives.getD i 0 = s.true_negatives.getD i 0 +
          ∑ j in Finset.range ld.length,
            (if ld.getD j 0 = 0 ∧ ¬(aucThresholds n).getD i 0 < pd.getD j 0
             then 1 else 0) ∧
        s'.false_positives.getD i 0 = s.false_positives.getD i 0 +
          ∑ j in Finset.range ld.length,
            (if ld.getD j 0 = 0 ∧ (aucThresholds n).getD i 0 < pd.getD j 0
             then 1 else 0)) ∧
    r = ∑ i in Finset.range (n - 1),
        (s'.false_positives.getD i 0 /
            (s'.false_positives.getD i 0 + s'.true_negatives.getD i 0 +
              epsilon) -
          s'.false_positives.getD (i + 1) 0 /
            (s'.false_positives.getD (i + 1) 0 +
              s'.true_negatives.getD (i + 1) 0 + epsilon)) *
        (((s'.true_positives.getD i 0 + epsilon) /
            (s'.true_positives.getD i 0 + s'.false_negatives.getD i 0 +
              epsilon) +
          (s'.true_positives.getD (i + 1) 0 + epsilon) /
            (s'.true_positives.getD (i + 1) 0 +
              s'.false_negatives.getD (i + 1) 0 + epsilon)) / 2) := by
  have halign : remove_squeezable_dimensions ⟨[pd.length], pd⟩
      ⟨[ld.length], ld⟩ = .ok (⟨[pd.length], pd⟩, ⟨[ld.length], ld⟩) :=
    remove_squeezable_same_rank _ _ (by simp [Tensor.rank])
  unfold streaming_auc_update at h
  rw [halign] at h
  simp only [Bind.bind, Except.bind] at h
  rw [if_neg (by simp [hpl])] at h
  rw [if_neg (by simp [Tensor.rank])] at h
  rw [if_neg (by simp [Tensor.rank])] at h
  simp only [aucCheckMask, Except.ok.injEq, Prod.mk.injEq] at h
  obtain ⟨hr, hs⟩ := h
  subst hs
  refine ⟨?_, ?_, ?_⟩
  · intro i hi
    unfold aucThresholds
    exact getD_linspace _ _ n i hn hi
  · intro i hi
    obtain ⟨e1, e2, e3, e4⟩ := getD_aucIncrements n s pd ld none i hi
      h1 h2 h3 h4
    refine ⟨?_, ?_, ?_, ?_⟩
    · rw [e1, aucRowSum_none_eq _ _ _ _ hpl]
      congr 1
      apply Finset.sum_congr rfl
      intro j _
      exact boolToFloat_is_tp_at _ _ _
    · rw [e2, aucRowSum_none_eq _ _ _ _ hpl]
      congr 1
      apply Finset.sum_congr rfl
      intro j _
      exact boolToFloat_is_fn_at _ _ _
    · rw [e3, aucRowSum_none_eq _ _ _ _ hpl]
      congr 1
      apply Finset.sum_congr rfl
      intro j _
      exact boolToFloat_is_tn_at _ _ _
    · rw [e4, aucRowSum_none_eq _ _ _ _ hpl]
      congr 1
      apply Finset.sum_congr rfl
      intro j _
      exact boolToFloat_is_fp_at _ _ _
  · obtain ⟨l1, l2, l3, l4⟩ := length_aucIncrements n s pd ld none
      h1 h2 h3 h4
    rw [← hr]
    exact compute_auc_eq n _ l1 l2 l3 l4

/-- C4 witness: the threshold and trapezoid formulas at a concrete
two-threshold update on predictions `[1/2]` and labels `[1]`. -/
theorem streaming_auc_algorithm_spec_witness :
    (aucThresholds 2).getD 0 0 =
      (0 - kepsilon) + ((0 : ℕ) : ℚ) *
        (((1 + kepsilon) - (0 - kepsilon)) / (((2 : ℕ) : ℚ) - 1)) :=
  (streaming_auc_algorithm_spec 2 (by norm_num) (aucInit 2)
    (by simp [aucInit, createLocalVector])
    (by simp [aucInit, createLocalVector])
    (by simp [aucInit, createLocalVector])
    (by simp [aucInit, createLocalVector])
    [1 / 2] [1] rfl 0 ⟨[1, 0], [0, 1], [0, 0], [0, 0]⟩
    (by norm_num [streaming_auc_update, remove_squeezable_dimensions,
      squeezeLast, Tensor.rank, aucCheckMask, aucIncrements, aucThresholds,
      linspace, aucRowSum, threshClassify, is_true_positive,
      is_false_negative, is_true_negative, is_false_positive, boolToFloat,
      compute_auc, false_positive_rate, auc_recall, aucInit,
      createLocalVector, kepsilon, epsilon, Bind.bind, Except.bind,
      List.zipWith, List.range_succ])).1 0 (by norm_num)

/-- C9: every count-like accumulator (`_count_condition`'s count and the
four confusion vectors of `streaming_auc`) starts at zero and never
decreases under a successful update, since each update adds a sum of masked
0/1 indicator terms. -/
theorem counters_start_zero_and_monotone :
    createLocalScalar = 0 ∧
    (∀ n i : ℕ, (aucInit n).true_positives.getD i 0 = 0 ∧
        (aucInit n).false_negatives.getD i 0 = 0 ∧
        (aucInit n).true_negatives.getD i 0 = 0 ∧
        (aucInit n).false_positives.getD i 0 = 0) ∧
    (∀ (c : ℚ) (vs : List Bool) (mask : Option (List Bool)) (c' : ℚ),
        count_condition_update c vs mask = .ok c' → c ≤ c') ∧
    (∀ (n : ℕ) (s : AucState) (p l : Tensor) (mask : Option (List Bool))
        (r : ℚ) (s' : AucState),
        s.true_positives.length = n → s.false_negatives.length = n →
        s.true_negatives.length = n → s.false_positives.length = n →
        streaming_auc_update n s p l mask = .ok (r, s') →
        ∀ i, i < n →
          s.true_positives.getD i 0 ≤ s'.true_positives.getD i 0 ∧
          s.false_negatives.getD i 0 ≤ s'.false_negatives.getD i 0 ∧
          s.true_negatives.getD i 0 ≤ s'.true_negatives.getD i 0 ∧
          s.false_positives.getD i 0 ≤ s'.false_positives.getD i 0) := by
  refine ⟨rfl, ?_, ?_, ?_⟩
  · intro n i
    unfold aucInit createLocalVector
    exact ⟨getD_replicate_zero n i, getD_replicate_zero n i,
      getD_replicate_zero n i, getD_replicate_zero n i⟩
  · exact count_condition_update_mono
  · intro n s p l mask r s' h1 h2 h3 h4 h i hi
    obtain ⟨pd, ld, hs, _⟩ := streaming_auc_update_ok n s p l mask r s' h
    subst hs
    obtain ⟨e1, e2, e3, e4⟩ := getD_aucIncrements n s pd ld mask i hi
      h1 h2 h3 h4
    refine ⟨?_, ?_, ?_, ?_⟩
    · rw [e1]
      have := aucRowSum_nonneg is_true_positive
        ((aucThresholds n).getD i 0) pd ld mask
      linarith
    · rw [e2]
      have := aucRowSum_nonneg is_false_negative
        ((aucThresholds n).getD i 0) pd ld mask
      linarith
    · rw [e3]
      have := aucRowSum_nonneg is_true_negative
        ((aucThresholds n).getD i 0) pd ld mask
      linarith
    · rw [e4]
      have := aucRowSum_nonneg is_false_positive
        ((aucThresholds n).getD i 0) pd ld mask
      linarith

/-- C9 witness: monotonicity instantiated at a concrete count update and a
concrete auc update from the zero state. -/
theorem counters_start_zero_and_monotone_witness :
    (0 : ℚ) ≤ 1 ∧
    (aucInit 2).true_positives.getD 0 0 ≤
      ([1, 0] : List ℚ).getD 0 0 := by
  constructor
  · exact counters_start_zero_and_monotone.2.2.1 0 [true] none 1
      (by norm_num [count_condition_update, boolToFloat])
  · exact (counters_start_zero_and_monotone.2.2.2 2 (aucInit 2)
      ⟨[1], [1 / 2]⟩ ⟨[1], [1]⟩ none 0 ⟨[1, 0], [0, 1], [0, 0], [0, 0]⟩
      (by simp [aucInit, createLocalVector])
      (by simp [aucInit, createLocalVector])
      (by simp [aucInit, createLocalVector])
      (by simp [aucInit, createLocalVector])
      (by norm_num [streaming_auc_update, remove_squeezable_dimensions,
        squeezeLast, Tensor.rank, aucCheckMask, aucIncrements, aucThresholds,
        linspace, aucRowSum, threshClassify, is_true_positive,
        is_false_negative, is_true_negative, is_false_positive, boolToFloat,
        compute_auc, false_positive_rate, auc_recall, aucInit,
        createLocalVector, kepsilon, epsilon, Bind.bind, Except.bind,
        List.zipWith, List.range_succ])
      0 (by norm_num)).1

/-- C10: `streaming_mean` with an all-ones weight vector produces exactly
the same update result and post-increment state as `streaming_mean` with no
weights on the same values. -/
theorem all_ones_weights_equal_unweighted (s : MeanState) (values : List ℚ) :
    streaming_mean_update s values (some (List.replicate values.length 1)) =
      streaming_mean_update s values none := by
  simp only [streaming_mean_update]
  rw [if_pos (by simp)]
  rw [zipWith_replicate_one_mul, sum_replicate_one]

end MetricOps
